import Mathlib

/-!
# Verification of the DocuCrawler core against its specification

Shallow embedding, in Lean 4, of the parts of the DocuCrawler repository that
the specification's claims are about:

* `docucrawler/utils/document_tracker.py` — the document change tracker
  (`DocumentTracker.update_document`, `_load_metadata`,
  `get_document_metadata`, `get_all_document_ids`, `mark_document_deleted`);
* `docucrawler/processors/advanced_chunker.py` — the cascading chunker
  (`chunk_text`, `_split_by_sections`, `_split_by_paragraphs`,
  `_split_by_sentences`, `_split_by_tokens`);
* `docucrawler/vectordb/integration.py` — `search_documents` chunk grouping
  and `delete_collection`;
* `docucrawler/vectordb/pgvector_db.py` — `PGVectorDB.delete_collection`.

Python dictionaries that hold persisted JSON are modelled by an explicit
`Json` value type, and Python's dynamic failures (`KeyError`, `TypeError`,
`AttributeError`, `ValueError`) by an explicit error monad, so that the code's
behaviour on malformed data is part of the model.  Filesystem state is passed
explicitly; `datetime.now().isoformat()` and `hashlib.sha256(...).hexdigest()`
are modelled as parameters (`now : String`, `hashFn : String → String`), since
the tracker's logic is independent of their values.
-/

namespace DocuCrawler

/-- Python runtime errors that the embedded code can raise. -/
inductive PyErr where
  | keyError
  | typeError
  | attributeError
  | valueError
deriving DecidableEq, Repr

instance {ε α : Type} [DecidableEq ε] [DecidableEq α] : DecidableEq (Except ε α) :=
  fun x y =>
    match x, y with
    | .ok a, .ok b =>
      if h : a = b then .isTrue (by rw [h])
      else .isFalse (fun hc => by injection hc; contradiction)
    | .error e, .error f =>
      if h : e = f then .isTrue (by rw [h])
      else .isFalse (fun hc => by injection hc; contradiction)
    | .ok _, .error _ => .isFalse (fun hc => by injection hc)
    | .error _, .ok _ => .isFalse (fun hc => by injection hc)

/-- A JSON value, as produced by `json.load` and manipulated as Python
dictionaries / lists / scalars inside the tracker.  Objects are association
lists in insertion order, matching Python 3 `dict` iteration order. -/
inductive Json where
  | null
  | bool (b : Bool)
  | num (n : Int)
  | str (s : String)
  | arr (elems : List Json)
  | obj (fields : List (String × Json))
deriving Repr

/-- First binding of key `k` in an association list (Python `dict` lookup;
keys of real Python dicts are unique, so first-match agrees with it). -/
def lookupKey {β : Type} (kvs : List (String × β)) (k : String) : Option β :=
  match kvs with
  | [] => none
  | (k', v) :: rest => if k' = k then some v else lookupKey rest k

/-- `d[k] = v` on a Python dict: replace the first binding of `k` in place,
else append (Python 3 dicts keep insertion order and update in place). -/
def insertKey {β : Type} (kvs : List (String × β)) (k : String) (v : β) :
    List (String × β) :=
  match kvs with
  | [] => [(k, v)]
  | (k', v') :: rest =>
    if k' = k then (k', v) :: rest else (k', v') :: insertKey rest k v

/-- `del d[k]` guarded by `if k in d` (removes the binding of `k`, if any). -/
def eraseKey {β : Type} : List (String × β) → String → List (String × β)
  | [], _ => []
  | (k', v) :: rest, k => if k' = k then rest else (k', v) :: eraseKey rest k

/-- Python `d[k]` subscript read: `KeyError` when the key is absent,
`TypeError` when the value is not a dict (string/list subscripts with a
string key also raise `TypeError` in Python). -/
def pyGetItem (j : Json) (k : String) : Except PyErr Json :=
  match j with
  | .obj kvs =>
    match lookupKey kvs k with
    | some v => .ok v
    | none => .error .keyError
  | _ => .error .typeError

/-- Python `d[k] = v` subscript write. -/
def pySetItem (j : Json) (k : String) (v : Json) : Except PyErr Json :=
  match j with
  | .obj kvs => .ok (.obj (insertKey kvs k v))
  | _ => .error .typeError

/-- Python `d.get(k)`: `None` when absent; `AttributeError` when the receiver
is not a dict. -/
def pyDictGet (j : Json) (k : String) : Except PyErr Json :=
  match j with
  | .obj kvs =>
    match lookupKey kvs k with
    | some v => .ok v
    | none => .ok .null
  | _ => .error .attributeError

/-- Is `p` a prefix of `l`? -/
def charPrefix : List Char → List Char → Bool
  | [], _ => true
  | _ :: _, [] => false
  | a :: ps, b :: ls => a = b && charPrefix ps ls

/-- Is `needle` a contiguous substring of `hay` (Python `needle in hay` on
strings; the empty string is a substring of everything)? -/
def charInfix (needle : List Char) : List Char → Bool
  | [] => charPrefix needle []
  | c :: rest => charPrefix needle (c :: rest) || charInfix needle rest

/-- Python `needle in hay` where `needle` is a string: key membership on a
dict, element membership on a list, substring test on a string, `TypeError`
otherwise. -/
def pyContains (hay : Json) (needle : String) : Except PyErr Bool :=
  match hay with
  | .obj kvs => .ok (kvs.any (fun kv => kv.1 = needle))
  | .arr elems => .ok (elems.any (fun e => match e with
      | .str s => s = needle
      | _ => false))
  | .str s => .ok (charInfix needle.toList s.toList)
  | _ => .error .typeError

/-- Python `x + 1` where `x` came out of a JSON document: only numbers
support it. -/
def pyAddOne (j : Json) : Except PyErr Json :=
  match j with
  | .num n => .ok (.num (n + 1))
  | _ => .error .typeError

/-- Python `d.update(kvs)` on a dict loaded from JSON:`AttributeError` when
the receiver is not a dict; existing keys are overwritten in place, new keys
appended (Python 3 `dict.update`). -/
def pyDictUpdate (j : Json) (kvs : List (String × Json)) : Except PyErr Json :=
  match j with
  | .obj fields => .ok (.obj (kvs.foldl (fun acc kv => insertKey acc kv.1 kv.2) fields))
  | _ => .error .attributeError

/-- Does this JSON value equal the Python string `s`?  (Python `==` between a
string and any non-string value is `False`.) -/
def jsonIsStr (j : Json) (s : String) : Bool :=
  match j with
  | .str t => t = s
  | _ => false

/-! ## Document tracker (`docucrawler/utils/document_tracker.py`) -/

/-- The on-disk state of one source's ledger file
(`<metadata_dir>/<source>_metadata.json`): absent, present but not valid JSON
(`json.load` raises `json.JSONDecodeError`), or present with a parsed JSON
value. -/
inductive FileState where
  | absent
  | invalidJson
  | storedJson (j : Json)

/-- The fresh empty ledger `{'documents': {}, 'last_crawl': None}`. -/
def emptyLedgerJson : Json :=
  .obj [("documents", .obj []), ("last_crawl", .null)]

/-- `DocumentTracker._load_metadata`: a missing file and a file that fails to
parse both yield the empty ledger; otherwise the parsed JSON value is
returned as-is (no shape validation happens here). -/
def loadMetadata (fs : FileState) : Json :=
  match fs with
  | .absent => emptyLedgerJson
  | .invalidJson => emptyLedgerJson
  | .storedJson j => j

/-- The record created for a new document (`update_document`, new-document
branch). -/
def newRecordJson (contentHash now : String) (metadata : List (String × Json)) :
    Json :=
  .obj [("content_hash", .str contentHash),
        ("created_at", .str now),
        ("updated_at", .str now),
        ("version", .num 1),
        ("metadata", .obj metadata)]

/-- `DocumentTracker.update_document(source, document_id, content, metadata)`.

The filesystem is passed in as the ledger file's state `fs`; the SHA-256
digest `hashlib.sha256(content.encode()).hexdigest()` is modelled by the
parameter `hashFn`, and `datetime.now().isoformat()` by `now`.  The result is
the returned pair `(is_new, has_changed)` together with the JSON document
written back by `_save_metadata`. -/
def updateDocument (hashFn : String → String) (now : String) (fs : FileState)
    (documentId content : String) (metadata : List (String × Json)) :
    Except PyErr ((Bool × Bool) × Json) := do
  let sourceMetadata := loadMetadata fs
  let documents ← pyGetItem sourceMetadata "documents"
  let contentHash := hashFn content
  let isNew := ! (← pyContains documents documentId)
  let hasChanged ←
    if isNew then pure true
    else do
      let record ← pyGetItem documents documentId
      let previousHash ← pyDictGet record "content_hash"
      pure (! jsonIsStr previousHash contentHash)
  let documents' ←
    if isNew then
      pySetItem documents documentId (newRecordJson contentHash now metadata)
    else if hasChanged then do
      let record ← pyGetItem documents documentId
      let record ← pySetItem record "content_hash" (.str contentHash)
      let record ← pySetItem record "updated_at" (.str now)
      let oldVersion ← pyGetItem record "version"
      let newVersion ← pyAddOne oldVersion
      let record ← pySetItem record "version" newVersion
      let recMeta ← pyGetItem record "metadata"
      let recMeta ← pyDictUpdate recMeta metadata
      let record ← pySetItem record "metadata" recMeta
      pySetItem documents documentId record
    else pure documents
  let sourceMetadata ← pySetItem sourceMetadata "documents" documents'
  let sourceMetadata ← pySetItem sourceMetadata "last_crawl" (.str now)
  pure ((isNew, hasChanged), sourceMetadata)

/-- `DocumentTracker.get_document_metadata`: `documents.get(document_id)`,
`None` (here `Json.null`) when the document is unknown. -/
def getDocumentMetadata (fs : FileState) (documentId : String) :
    Except PyErr Json := do
  let sourceMetadata := loadMetadata fs
  let documents ← pyGetItem sourceMetadata "documents"
  pyDictGet documents documentId

/-- `DocumentTracker.get_all_document_ids`:
`list(source_metadata['documents'].keys())`. -/
def getAllDocumentIds (fs : FileState) : Except PyErr (List String) := do
  let sourceMetadata := loadMetadata fs
  let documents ← pyGetItem sourceMetadata "documents"
  match documents with
  | .obj kvs => pure (kvs.map Prod.fst)
  | _ => throw .attributeError

/-- `DocumentTracker.mark_document_deleted`: sets `deleted` / `deleted_at` and
saves when the document exists (result `(true, some saved)`); otherwise
returns `false` without writing (`(false, none)`). -/
def markDocumentDeleted (now : String) (fs : FileState) (documentId : String) :
    Except PyErr (Bool × Option Json) := do
  let sourceMetadata := loadMetadata fs
  let documents ← pyGetItem sourceMetadata "documents"
  if (← pyContains documents documentId) then do
    let record ← pyGetItem documents documentId
    let record ← pySetItem record "deleted" (.bool true)
    let record ← pySetItem record "deleted_at" (.str now)
    let documents' ← pySetItem documents documentId record
    let sourceMetadata ← pySetItem sourceMetadata "documents" documents'
    pure (true, some sourceMetadata)
  else
    pure (false, none)

/-! ### Well-formed ledgers

The theorems about the tracker's decision table quantify over ledgers of the
shape the tracker itself writes.  `DocRecord`/`Ledger` describe that shape and
`Ledger.toJson` injects it into the raw `Json` the operations run on. -/

/-- One `VersionRecord` as `update_document` writes it. -/
structure DocRecord where
  contentHash : String
  createdAt : String
  updatedAt : String
  version : Int
  metadata : List (String × Json)
deriving Repr

/-- JSON form of a `DocRecord`. -/
def DocRecord.toJson (r : DocRecord) : Json :=
  .obj [("content_hash", .str r.contentHash),
        ("created_at", .str r.createdAt),
        ("updated_at", .str r.updatedAt),
        ("version", .num r.version),
        ("metadata", .obj r.metadata)]

/-- The record value produced by the has-changed branch of `update_document`
for a previously stored record `r`: new hash, fresh `updated_at`, version
bumped by one, metadata merged with `dict.update` semantics. -/
def DocRecord.updatedJson (r : DocRecord) (newHash now : String)
    (metadata : List (String × Json)) : Json :=
  .obj [("content_hash", .str newHash),
        ("created_at", .str r.createdAt),
        ("updated_at", .str now),
        ("version", .num (r.version + 1)),
        ("metadata", .obj (metadata.foldl (fun acc kv => insertKey acc kv.1 kv.2) r.metadata))]

/-- A well-formed source ledger: documents in insertion order plus the last
crawl timestamp. -/
structure Ledger where
  documents : List (String × DocRecord)
  lastCrawl : Json
deriving Repr

/-- The `documents` object of a well-formed ledger, in JSON form. -/
def ledgerDocsJson (l : Ledger) : List (String × Json) :=
  l.documents.map (fun kr => (kr.1, kr.2.toJson))

/-- JSON form of a `Ledger`, as `_save_metadata` serializes it. -/
def Ledger.toJson (l : Ledger) : Json :=
  .obj [("documents", .obj (ledgerDocsJson l)), ("last_crawl", l.lastCrawl)]

/-- Observer: the record stored under `docId` in a saved ledger document. -/
def recordOf (saved : Json) (docId : String) : Option Json :=
  match saved with
  | .obj kvs =>
    match lookupKey kvs "documents" with
    | some (.obj ds) => lookupKey ds docId
    | _ => none
  | _ => none

/-- Observer: one field of the record stored under `docId`. -/
def recordField (saved : Json) (docId field : String) : Option Json :=
  match recordOf saved docId with
  | some (.obj kvs) => lookupKey kvs field
  | _ => none

/-- Observer: the `last_crawl` field of a saved ledger document. -/
def lastCrawlOf (saved : Json) : Option Json :=
  match saved with
  | .obj kvs => lookupKey kvs "last_crawl"
  | _ => none

/-! ## Advanced chunker (`docucrawler/processors/advanced_chunker.py`)

Text is modelled as `List Char` (Python `len`, slicing and `re` patterns act
on code points).  `\s` and `str.strip()` use Python's ASCII whitespace class
`[ \t\n\r\v\f]` (the texts at issue contain no exotic Unicode whitespace). -/

/-- `AdvancedChunker.__init__` configuration (defaults 512 / 100 / 50 and all
three `respect_*` flags on). -/
structure ChunkerConfig where
  maxChunkSize : Int := 512
  minChunkSize : Int := 100
  overlap : Int := 50
  respectSections : Bool := true
  respectParagraphs : Bool := true
  respectSentences : Bool := true

/-- Python whitespace (`\s`, `str.strip`): space, tab, newline, carriage
return, vertical tab, form feed. -/
def isPySpace (c : Char) : Bool :=
  c = ' ' || c = '\t' || c = '\n' || c = '\r' || c = Char.ofNat 11 || c = Char.ofNat 12

/-- Python slice index normalization for `l[i:j]`: non-negative indices clamp
to the length, negative indices count from the end. -/
def pySliceIdx (n : Nat) (i : Int) : Nat :=
  if 0 ≤ i then min i.toNat n else n - min n (-i).toNat

/-- Python `l[i:j]`. -/
def pySlice (l : List Char) (i j : Int) : List Char :=
  let a := pySliceIdx l.length i
  let b := pySliceIdx l.length j
  (l.drop a).take (b - a)

/-- Python `range(start, stop, step)` as a list: `ValueError` on a zero step,
otherwise `start, start+step, …` strictly before (after, for negative step)
`stop`. -/
def pyRange (start stop step : Int) : Except PyErr (List Int) :=
  if step = 0 then .error .valueError
  else if 0 < step then
    .ok ((List.range (((stop - start).toNat + step.toNat - 1) / step.toNat)).map
      (fun k : Nat => start + step * (k : Int)))
  else
    .ok ((List.range (((start - stop).toNat + (-step).toNat - 1) / (-step).toNat)).map
      (fun k : Nat => start + step * (k : Int)))

/-- `AdvancedChunker._split_by_tokens`: fixed windows of
`max_chunk_size * 4` characters starting every
`(max_chunk_size - overlap) * 4` characters; empty slices are dropped. -/
def splitByTokens (cfg : ChunkerConfig) (text : List Char) :
    Except PyErr (List (List Char)) := do
  let charsPerToken : Int := 4
  let maxChars := cfg.maxChunkSize * charsPerToken
  let starts ← pyRange 0 text.length (maxChars - cfg.overlap * charsPerToken)
  pure (starts.filterMap (fun i =>
    let chunk := pySlice text i (i + maxChars)
    if chunk.isEmpty then none else some chunk))

/-- One step of `re.split(r'\n\s*\n', …)` after an initial `'\n'` was seen:
how many characters of the remaining text the greedy `\s*\n` consumes (up to
and including the last newline of the following whitespace run), if the run
contains a newline at all. -/
def paraMatchTail (rs : List Char) : Option Nat :=
  let run := rs.takeWhile isPySpace
  match run.reverse.findIdx? (fun c => c = '\n') with
  | some rIdx => some (run.length - rIdx)
  | none => none

/-- Scanner for `re.split(r'\n\s*\n', text)` (leftmost, greedy,
non-overlapping matches; the pieces between matches are returned). -/
def splitParasAux (acc : List Char) : List Char → List (List Char)
  | [] => [acc.reverse]
  | c :: rs =>
    if c = '\n' then
      match paraMatchTail rs with
      | some consumed => acc.reverse :: splitParasAux [] (rs.drop consumed)
      | none => splitParasAux (c :: acc) rs
    else splitParasAux (c :: acc) rs
termination_by rest => rest.length
decreasing_by
  · simp only [List.length_cons, List.length_drop]; omega
  · simp only [List.length_cons]; omega
  · simp only [List.length_cons]; omega

/-- `re.split(r'\n\s*\n', text)`, the paragraph separator split. -/
def splitParas (text : List Char) : List (List Char) :=
  splitParasAux [] text

/-- Scanner for `re.split(r'(?<=[.!?])\s+', text)`: a match is a maximal
whitespace run whose preceding character is `.`, `!` or `?`. -/
def splitSentsAux (prev : Option Char) (acc : List Char) :
    List Char → List (List Char)
  | [] => [acc.reverse]
  | c :: rs =>
    if isPySpace c ∧ (prev = some '.' ∨ prev = some '!' ∨ prev = some '?') then
      let run := c :: rs.takeWhile isPySpace
      acc.reverse :: splitSentsAux (some (run.getLastD c)) [] (rs.drop (run.length - 1))
    else splitSentsAux (some c) (c :: acc) rs
termination_by rest => rest.length
decreasing_by
  · simp only [List.length_cons, List.length_drop]; omega
  · simp only [List.length_cons]; omega

/-- `re.split(r'(?<=[.!?])\s+', text)`, the sentence split. -/
def splitSents (text : List Char) : List (List Char) :=
  splitSentsAux none [] text

/-- Does `#{2,}[^\n]+` match at the head of `l`?  The greedy groups jointly
consume the whole non-newline run, which must start with at least two `#` and
be at least three characters long.  Returns the matched heading and the rest
of the text. -/
def headingAt (l : List Char) : Option (List Char × List Char) :=
  let run := l.takeWhile (fun c => c ≠ '\n')
  let hashes := run.takeWhile (fun c => c = '#')
  if 2 ≤ hashes.length ∧ 3 ≤ run.length then some (run, l.drop run.length)
  else none

/-- Scanner for `re.split(r'(^|\n)(#{2,}[^\n]+)', text)` from a position past
the start: matches anchor on a literal `'\n'` (group 1).  The produced list
interleaves the separating group captures with the pieces, exactly as
`re.split` does with capturing groups. -/
def splitSectionsAux (acc : List Char) : List Char → List (List Char)
  | [] => [acc.reverse]
  | c :: rs =>
    if c = '\n' then
      match headingAt rs with
      | some (heading, _) =>
        acc.reverse :: ['\n'] :: heading :: splitSectionsAux [] (rs.drop heading.length)
      | none => splitSectionsAux (c :: acc) rs
    else splitSectionsAux (c :: acc) rs
termination_by rest => rest.length
decreasing_by
  · simp only [List.length_cons, List.length_drop]; omega
  · simp only [List.length_cons]; omega
  · simp only [List.length_cons]; omega

/-- `re.split(r'(^|\n)(#{2,}[^\n]+)', text)` with group captures included —
the `^` alternative can only fire at position 0. -/
def splitSectionsRe (text : List Char) : List (List Char) :=
  match headingAt text with
  | some (heading, rest) => [] :: [] :: heading :: splitSectionsAux [] rest
  | none => splitSectionsAux [] text

/-- The greedy packing loop shared by `_split_by_paragraphs` and
`_split_by_sentences`: skip whitespace-only pieces, emit the running chunk
when adding the next piece would pass `max_chunk_size` while the running
chunk already has `min_chunk_size`, otherwise append with the separator. -/
def packLoop (cfg : ChunkerConfig) (sep : List Char) (current : List Char) :
    List (List Char) → List (List Char)
  | [] => if current.isEmpty then [] else [current]
  | p :: rest =>
    if p.all isPySpace then packLoop cfg sep current rest
    else if ((current.length : Int) + p.length > cfg.maxChunkSize)
        ∧ ((current.length : Int) ≥ cfg.minChunkSize) then
      current :: packLoop cfg sep p rest
    else if current.isEmpty then packLoop cfg sep p rest
    else packLoop cfg sep (current ++ sep ++ p) rest

/-- `AdvancedChunker._split_by_sentences`: sentence split, greedy packing
with separator `" "`, then token-window re-splitting of any chunk still
longer than `max_chunk_size`. -/
def splitBySentences (cfg : ChunkerConfig) (text : List Char) :
    Except PyErr (List (List Char)) := do
  let chunks := packLoop cfg [' '] [] (splitSents text)
  let nested ← chunks.mapM (fun c =>
    if (c.length : Int) > cfg.maxChunkSize then splitByTokens cfg c else pure [c])
  pure nested.flatten

/-- `AdvancedChunker._split_by_paragraphs`: paragraph split, greedy packing
with separator `"\n\n"`, then sentence re-splitting of oversized chunks. -/
def splitByParagraphs (cfg : ChunkerConfig) (text : List Char) :
    Except PyErr (List (List Char)) := do
  let chunks := packLoop cfg ['\n', '\n'] [] (splitParas text)
  let nested ← chunks.mapM (fun c =>
    if (c.length : Int) > cfg.maxChunkSize then splitBySentences cfg c else pure [c])
  pure nested.flatten

/-- The heading/content combination loop of `_split_by_sections`: steps
through the `re.split` output three entries at a time (`group 1`, `group 2`,
following piece), gluing `heading = g1 + g2` and its content onto the running
chunk under the same size rule. -/
def sectionCombine (cfg : ChunkerConfig) (current : List Char) :
    List (List Char) → List (List Char)
  | g1 :: g2 :: rest =>
    let heading := g1 ++ g2
    let content := rest.headD []
    if ((current.length : Int) + heading.length + content.length > cfg.maxChunkSize)
        ∧ ((current.length : Int) ≥ cfg.minChunkSize) then
      current :: sectionCombine cfg (heading ++ content) rest.tail
    else sectionCombine cfg (current ++ heading ++ content) rest.tail
  | _ => if current.isEmpty then [] else [current]
termination_by sections => sections.length
decreasing_by
  · simp only [List.length_cons, List.length_tail]; omega
  · simp only [List.length_cons, List.length_tail]; omega

/-- `AdvancedChunker._split_by_sections`: Markdown-heading split, heading
packing, then paragraph (or sentence, when `respect_paragraphs` is off)
re-splitting of oversized chunks. -/
def splitBySections (cfg : ChunkerConfig) (text : List Char) :
    Except PyErr (List (List Char)) := do
  let sections := splitSectionsRe text
  let chunks := sectionCombine cfg (sections.headD []) sections.tail
  let nested ← chunks.mapM (fun c =>
    if (c.length : Int) > cfg.maxChunkSize then
      (if cfg.respectParagraphs then splitByParagraphs cfg c
       else splitBySentences cfg c)
    else pure [c])
  pure nested.flatten

/-- One output chunk of `chunk_text`, carrying its position metadata and the
inherited document metadata. -/
structure TextChunk where
  content : List Char
  chunkIndex : Nat
  chunkCount : Nat
  metadata : List (String × String)
deriving Repr, DecidableEq

/-- `'##' in text`. -/
def containsSectionMarker (text : List Char) : Bool :=
  charInfix ['#', '#'] text

/-- `AdvancedChunker.chunk_text`: the splitting cascade followed by metadata
tagging with `chunk_index` / `chunk_count`. -/
def chunkText (cfg : ChunkerConfig) (metadata : List (String × String))
    (text : List Char) : Except PyErr (List TextChunk) := do
  let chunks ←
    if cfg.respectSections ∧ containsSectionMarker text then splitBySections cfg text
    else if cfg.respectParagraphs then splitByParagraphs cfg text
    else if cfg.respectSentences then splitBySentences cfg text
    else splitByTokens cfg text
  pure (chunks.enum.map (fun ic =>
    { content := ic.2, chunkIndex := ic.1, chunkCount := chunks.length,
      metadata := metadata }))

/-! ## Search aggregator (`docucrawler/vectordb/integration.py::search_documents`)

A backend hit is the dictionary the PGVector adapter returns from `search`:
keys `id`, `title`, `content`, `metadata`, `similarity` — and nothing else (in
particular no `chunks` key).  Float similarities are modelled as rationals.
`search_documents` is modelled from the point where the backend has returned
its hit list: the connection handling and the `limit * 3` over-fetch happen
before the grouping logic these claims are about. -/

/-- The metadata fields of a hit that the grouping logic reads, each with its
`dict.get` fallback: `is_chunk` defaults to `False`, `parent_id` to `None`,
`chunk_index` to `0`. -/
structure HitMeta where
  isChunk : Bool := false
  parentId : Option String := none
  chunkIndex : Option Int := none
deriving Repr, DecidableEq

/-- One hit as returned by `PGVectorDB.search`. -/
structure SearchHit where
  id : String
  title : String
  content : String
  metadata : HitMeta
  similarity : ℚ
deriving Repr, DecidableEq

/-- One entry of a group's `chunks` list. -/
structure ChunkEntry where
  content : String
  similarity : ℚ
  index : Int
deriving Repr, DecidableEq

/-- The dictionary created for a parent document in `grouped_results`. -/
structure Group where
  id : String
  title : String
  content : String
  chunks : List ChunkEntry
  similarity : ℚ
deriving Repr, DecidableEq

/-- A value of `grouped_results` (and of the returned list): either a raw hit
dictionary passed through unchanged — which has no `chunks` key — or a
chunk-group dictionary. -/
inductive GEntry where
  | passthrough (h : SearchHit)
  | grouped (g : Group)
deriving Repr, DecidableEq

/-- `x.get('similarity', 0)`: both dictionary shapes carry a `similarity`
key. -/
def GEntry.similarity : GEntry → ℚ
  | .passthrough h => h.similarity
  | .grouped g => g.similarity

/-- The first loop of `search_documents` with `group_chunks=True`, building
`grouped_results` (an insertion-ordered dict keyed by parent/document id).
Appending a chunk to a pass-through entry raises `KeyError`, because the raw
hit dictionary stored there has no `'chunks'` key. -/
def buildGroups : List SearchHit → List (String × GEntry) →
    Except PyErr (List (String × GEntry))
  | [], acc => .ok acc
  | h :: rest, acc =>
    if h.metadata.isChunk then
      match h.metadata.parentId with
      | none => buildGroups rest acc
      | some pid =>
        if pid = "" then buildGroups rest acc
        else
          let acc1 : List (String × GEntry) :=
            match lookupKey acc pid with
            | none => acc ++ [(pid, .grouped
                { id := pid, title := h.title, content := "", chunks := [],
                  similarity := h.similarity })]
            | some _ => acc
          match lookupKey acc1 pid with
          | some (.grouped g) =>
            let g1 := { g with chunks := g.chunks ++
              [{ content := h.content, similarity := h.similarity,
                 index := h.metadata.chunkIndex.getD 0 }] }
            let g2 := if h.similarity > g1.similarity
                      then { g1 with similarity := h.similarity } else g1
            buildGroups rest (insertKey acc1 pid (.grouped g2))
          | some (.passthrough _) => .error .keyError
          | none => .error .keyError
    else
      if h.id ≠ "" ∧ (lookupKey acc h.id).isNone then
        buildGroups rest (acc ++ [(h.id, .passthrough h)])
      else buildGroups rest acc

/-- Stable descending insertion by `similarity` (inserting after all entries
with a greater-or-equal key). -/
def insertDescBySim (x : GEntry) : List GEntry → List GEntry
  | [] => [x]
  | y :: ys => if x.similarity > y.similarity then x :: y :: ys
               else y :: insertDescBySim x ys

/-- `sorted(…, key=lambda x: x.get('similarity', 0), reverse=True)` —
Python's sort is stable, so it agrees with stable insertion sort. -/
def sortDescBySim (l : List GEntry) : List GEntry :=
  l.foldl (fun acc x => insertDescBySim x acc) []

/-- Stable ascending insertion by chunk `index`. -/
def insertAscByIdx (x : ChunkEntry) : List ChunkEntry → List ChunkEntry
  | [] => [x]
  | y :: ys => if x.index < y.index then x :: y :: ys
               else y :: insertAscByIdx x ys

/-- `sorted(result['chunks'], key=lambda x: x.get('index', 0))`. -/
def sortAscByIdx (l : List ChunkEntry) : List ChunkEntry :=
  l.foldl (fun acc x => insertAscByIdx x acc) []

/-- `sep.join(pieces)`. -/
def joinPieces (sep : String) : List String → String
  | [] => ""
  | [x] => x
  | x :: y :: rest => x ++ sep ++ joinPieces sep (y :: rest)

/-- `'\n\n'.join(chunk.get('content', '') for chunk in sorted_chunks)`. -/
def joinChunkContents (chunks : List ChunkEntry) : String :=
  joinPieces "\n\n" (chunks.map (fun c => c.content))

/-- The final per-result mutation of `search_documents`: only entries that
have a non-empty `chunks` list are touched — their content becomes the join
of all chunks in ascending index order, and `chunks` is truncated to the
first three of that index-sorted list. -/
def finalizeEntry : GEntry → GEntry
  | .grouped g =>
    if g.chunks.isEmpty then .grouped g
    else
      let sc := sortAscByIdx g.chunks
      .grouped { g with content := joinChunkContents sc, chunks := sc.take 3 }
  | e => e

/-- `search_documents(…, group_chunks)` from the backend's hit list onward:
pass-through with truncation when not grouping; otherwise group, sort by
descending similarity, finalize each entry, truncate to `limit`. -/
def searchDocuments (hits : List SearchHit) (limit : Nat) (groupChunks : Bool) :
    Except PyErr (List GEntry) :=
  if !groupChunks then .ok ((hits.map .passthrough).take limit)
  else do
    let acc ← buildGroups hits []
    let sortedResults := sortDescBySim (acc.map Prod.snd)
    pure ((sortedResults.map finalizeEntry).take limit)

/-! ## PGVector collection deletion (`docucrawler/vectordb/pgvector_db.py`,
`docucrawler/vectordb/integration.py::delete_collection`) -/

/-- One row of the shared `documents` table. -/
structure PGRow where
  id : String
  collection : String
  title : String
  content : String
  metadata : Json
  embedding : List ℚ

/-- The backend state `PGVectorDB` acts on: the `documents` table plus the
adapter's in-memory `self.collections` dimension tracking. -/
structure PGState where
  rows : List PGRow
  collections : List (String × Int)

/-- `PGVectorDB.delete_collection`: `DELETE FROM documents WHERE collection =
name` (deleting zero rows is a successful statement), drop the tracking entry
if present, and return `True`.  The `except` branch converts backend/session
exceptions to `False`; no exception arises from the collection being
unknown. -/
def pgDeleteCollection (st : PGState) (name : String) : Bool × PGState :=
  (true,
   { rows := st.rows.filter (fun r => r.collection ≠ name),
     collections := eraseKey st.collections name })

/-- `integration.delete_collection`: `False` when `connect` fails, otherwise
the adapter's result. -/
def integrationDeleteCollection (connected : Bool) (st : PGState)
    (name : String) : Bool × PGState :=
  if !connected then (false, st) else pgDeleteCollection st name

/-- Observer: the content of the first returned result when it is a chunk
group. -/
def firstGroupContent (r : Except PyErr (List GEntry)) : Option String :=
  match r with
  | .ok (.grouped g :: _) => some g.content
  | _ => none

/-- Observer: the chunk indices of the first returned result when it is a
chunk group. -/
def firstGroupChunkIndices (r : Except PyErr (List GEntry)) : Option (List Int) :=
  match r with
  | .ok (.grouped g :: _) => some (g.chunks.map (fun c => c.index))
  | _ => none

/-- The retained chunks of a group are in ascending `chunk_index` order. -/
def chunksSortedByIndex (l : List ChunkEntry) : Prop :=
  l.Pairwise (fun a b => a.index ≤ b.index)

/-- A collection that was never created: no row of the table belongs to it
and the adapter does not track it. -/
def PGState.neverCreated (st : PGState) (name : String) : Prop :=
  (∀ r ∈ st.rows, r.collection ≠ name) ∧ lookupKey st.collections name = none

instance (st : PGState) (name : String) : Decidable (st.neverCreated name) := by
  unfold PGState.neverCreated; infer_instance

end DocuCrawler

/-! # Theorems -/

namespace DocuCrawler

/-! ## Generic reduction and association-list lemmas -/

theorem okBind {ε α β : Type} (x : α) (f : α → Except ε β) :
    (Except.ok x >>= f) = f x := rfl

theorem pureOk {ε α : Type} (x : α) : (pure x : Except ε α) = Except.ok x := rfl

theorem errBind {ε α β : Type} (e : ε) (f : α → Except ε β) :
    (Except.error e >>= f) = .error e := rfl

theorem eq_nil_of_isEmpty {α : Type} (l : List α) (h : l.isEmpty = true) :
    l = [] := by
  cases l with
  | nil => rfl
  | cons a t => simp at h

theorem lookupKey_map {β γ : Type} (f : β → γ) (kvs : List (String × β))
    (k : String) :
    lookupKey (kvs.map (fun kr => (kr.1, f kr.2))) k = (lookupKey kvs k).map f := by
  induction kvs with
  | nil => rfl
  | cons kv rest ih =>
    by_cases h : kv.1 = k <;> simp [lookupKey, h, ih]

theorem any_key_eq_isSome {β : Type} (kvs : List (String × β)) (k : String) :
    (kvs.any (fun kv => kv.1 = k)) = (lookupKey kvs k).isSome := by
  induction kvs with
  | nil => rfl
  | cons kv rest ih =>
    by_cases h : kv.1 = k <;> simp [lookupKey, h, ih]

theorem lookupKey_insertKey_self {β : Type} (kvs : List (String × β))
    (k : String) (v : β) :
    lookupKey (insertKey kvs k v) k = some v := by
  induction kvs with
  | nil => simp [insertKey, lookupKey]
  | cons kv rest ih =>
    by_cases h : kv.1 = k <;> simp [insertKey, lookupKey, h, ih]

/-! ## Document tracker: branch behaviour of `update_document` -/

theorem updateDocument_new (hashFn : String → String) (now : String)
    (fs : FileState) (l : Ledger) (docId content : String)
    (metadata : List (String × Json))
    (hload : loadMetadata fs = l.toJson)
    (habs : lookupKey l.documents docId = none) :
    updateDocument hashFn now fs docId content metadata =
      .ok ((true, true), .obj
        [("documents", .obj (insertKey (ledgerDocsJson l) docId
            (newRecordJson (hashFn content) now metadata))),
         ("last_crawl", .str now)]) := by
  have hAny : ((ledgerDocsJson l).any (fun kv => kv.1 = docId)) = false := by
    rw [any_key_eq_isSome, ledgerDocsJson, lookupKey_map, habs]
    rfl
  unfold updateDocument
  rw [hload]
  simp [Ledger.toJson, pyGetItem, pyContains, pySetItem, lookupKey, insertKey,
    hAny, okBind, pureOk]

theorem updateDocument_unchanged (hashFn : String → String) (now : String)
    (fs : FileState) (l : Ledger) (docId content : String)
    (metadata : List (String × Json)) (r : DocRecord)
    (hload : loadMetadata fs = l.toJson)
    (hfind : lookupKey l.documents docId = some r)
    (hhash : hashFn content = r.contentHash) :
    updateDocument hashFn now fs docId content metadata =
      .ok ((false, false), .obj
        [("documents", .obj (ledgerDocsJson l)), ("last_crawl", .str now)]) := by
  have hlk : lookupKey (ledgerDocsJson l) docId = some r.toJson := by
    rw [ledgerDocsJson, lookupKey_map, hfind]; rfl
  have hAny : ((ledgerDocsJson l).any (fun kv => kv.1 = docId)) = true := by
    rw [any_key_eq_isSome, hlk]; rfl
  unfold updateDocument
  rw [hload]
  simp [Ledger.toJson, pyGetItem, pyContains, pySetItem, pyDictGet, jsonIsStr,
    DocRecord.toJson, lookupKey, insertKey, hAny, hlk, hhash, okBind, pureOk]

theorem updateDocument_changed (hashFn : String → String) (now : String)
    (fs : FileState) (l : Ledger) (docId content : String)
    (metadata : List (String × Json)) (r : DocRecord)
    (hload : loadMetadata fs = l.toJson)
    (hfind : lookupKey l.documents docId = some r)
    (hhash : hashFn content ≠ r.contentHash) :
    updateDocument hashFn now fs docId content metadata =
      .ok ((false, true), .obj
        [("documents", .obj (insertKey (ledgerDocsJson l) docId
            (r.updatedJson (hashFn content) now metadata))),
         ("last_crawl", .str now)]) := by
  have hlk : lookupKey (ledgerDocsJson l) docId = some r.toJson := by
    rw [ledgerDocsJson, lookupKey_map, hfind]; rfl
  have hAny : ((ledgerDocsJson l).any (fun kv => kv.1 = docId)) = true := by
    rw [any_key_eq_isSome, hlk]; rfl
  have hne : (r.contentHash = hashFn content) = False := by
    simp only [eq_iff_iff, iff_false]
    exact fun h => hhash h.symm
  unfold updateDocument
  rw [hload]
  simp [Ledger.toJson, pyGetItem, pyContains, pySetItem, pyDictGet, pyAddOne,
    pyDictUpdate, jsonIsStr, DocRecord.toJson, DocRecord.updatedJson,
    lookupKey, insertKey, hAny, hlk, hne, okBind, pureOk]

/-- C1: `update_document` follows the spec's decision table: no stored record
for `(source, document_id)` gives `(is_new=true, has_changed=true)` and a
fresh record with `version = 1`; a stored record whose `content_hash` equals
the digest of the new content gives `(false, false)` with the version
unchanged; a stored record with a differing digest gives `(false, true)` with
the version incremented by exactly 1.  The content digest
(`hashlib.sha256(...).hexdigest()`) enters only through `hashFn`. -/
theorem update_document_decision_table
    (hashFn : String → String) (now : String) (l : Ledger)
    (docId content : String) (metadata : List (String × Json)) :
    (lookupKey l.documents docId = none →
      ∃ saved,
        updateDocument hashFn now (.storedJson l.toJson) docId content metadata
            = .ok ((true, true), saved)
          ∧ recordOf saved docId = some (newRecordJson (hashFn content) now metadata)
          ∧ recordField saved docId "version" = some (.num 1)) ∧
    (∀ r : DocRecord, lookupKey l.documents docId = some r →
      hashFn content = r.contentHash →
      ∃ saved,
        updateDocument hashFn now (.storedJson l.toJson) docId content metadata
            = .ok ((false, false), saved)
          ∧ recordField saved docId "version" = some (.num r.version)) ∧
    (∀ r : DocRecord, lookupKey l.documents docId = some r →
      hashFn content ≠ r.contentHash →
      ∃ saved,
        updateDocument hashFn now (.storedJson l.toJson) docId content metadata
            = .ok ((false, true), saved)
          ∧ recordField saved docId "version" = some (.num (r.version + 1))) := by
  refine ⟨fun habs => ?_, fun r hfind hhash => ?_, fun r hfind hhash => ?_⟩
  · exact ⟨_, updateDocument_new hashFn now _ l docId content metadata rfl habs,
      by simp [recordOf, lookupKey, lookupKey_insertKey_self],
      by simp [recordField, recordOf, lookupKey, lookupKey_insertKey_self,
        newRecordJson]⟩
  · have hlk : lookupKey (ledgerDocsJson l) docId = some r.toJson := by
      rw [ledgerDocsJson, lookupKey_map, hfind]; rfl
    exact ⟨_, updateDocument_unchanged hashFn now _ l docId content metadata r
        rfl hfind hhash,
      by simp [recordField, recordOf, lookupKey, hlk, DocRecord.toJson]⟩
  · exact ⟨_, updateDocument_changed hashFn now _ l docId content metadata r
        rfl hfind hhash,
      by simp [recordField, recordOf, lookupKey, lookupKey_insertKey_self,
        DocRecord.updatedJson]⟩

theorem update_document_decision_table_witness :
    (∃ saved,
      updateDocument (fun s => s) "T1"
          (.storedJson (Ledger.toJson
            { documents := [("d",
                { contentHash := "old", createdAt := "T0", updatedAt := "T0",
                  version := 3, metadata := [] })], lastCrawl := .null }))
          "e" "body" [] = .ok ((true, true), saved)
        ∧ recordOf saved "e" = some (newRecordJson "body" "T1" [])
        ∧ recordField saved "e" "version" = some (.num 1)) ∧
    (∃ saved,
      updateDocument (fun s => s) "T1"
          (.storedJson (Ledger.toJson
            { documents := [("d",
                { contentHash := "old", createdAt := "T0", updatedAt := "T0",
                  version := 3, metadata := [] })], lastCrawl := .null }))
          "d" "old" [] = .ok ((false, false), saved)
        ∧ recordField saved "d" "version" = some (.num 3)) ∧
    (∃ saved,
      updateDocument (fun s => s) "T1"
          (.storedJson (Ledger.toJson
            { documents := [("d",
                { contentHash := "old", createdAt := "T0", updatedAt := "T0",
                  version := 3, metadata := [] })], lastCrawl := .null }))
          "d" "new" [] = .ok ((false, true), saved)
        ∧ recordField saved "d" "version" = some (.num (3 + 1))) :=
  ⟨(update_document_decision_table (fun s => s) "T1" _ "e" "body" []).1 (by rfl),
   (update_document_decision_table (fun s => s) "T1" _ "d" "old" []).2.1
     { contentHash := "old", createdAt := "T0", updatedAt := "T0",
       version := 3, metadata := [] } (by rfl) (by rfl),
   (update_document_decision_table (fun s => s) "T1" _ "d" "new" []).2.2
     { contentHash := "old", createdAt := "T0", updatedAt := "T0",
       version := 3, metadata := [] } (by rfl) (by decide)⟩

/-- C7: when the digest of the submitted content equals the stored
`content_hash`, the stored record is left entirely unchanged (every field),
while the ledger's `last_crawl` is set to the current time — and `last_crawl`
is refreshed to the current time on every call that completes, regardless of
the change outcome. -/
theorem update_document_unchanged_frame
    (hashFn : String → String) (now : String) (l : Ledger)
    (docId content : String) (metadata : List (String × Json)) (r : DocRecord)
    (hfind : lookupKey l.documents docId = some r)
    (hhash : hashFn content = r.contentHash) :
    (∃ saved,
      updateDocument hashFn now (.storedJson l.toJson) docId content metadata
          = .ok ((false, false), saved)
        ∧ recordOf saved docId = some r.toJson
        ∧ lastCrawlOf saved = some (.str now)) ∧
    (∀ (l2 : Ledger) (docId2 content2 : String)
        (metadata2 : List (String × Json)) (flags : Bool × Bool) (saved2 : Json),
      updateDocument hashFn now (.storedJson l2.toJson) docId2 content2 metadata2
          = .ok (flags, saved2) →
      lastCrawlOf saved2 = some (.str now)) := by
  constructor
  · have hlk : lookupKey (ledgerDocsJson l) docId = some r.toJson := by
      rw [ledgerDocsJson, lookupKey_map, hfind]; rfl
    exact ⟨_, updateDocument_unchanged hashFn now _ l docId content metadata r
        rfl hfind hhash,
      by simp [recordOf, lookupKey, hlk],
      by simp [lastCrawlOf, lookupKey]⟩
  · intro l2 docId2 content2 metadata2 flags saved2 h
    match hl2 : lookupKey l2.documents docId2 with
    | none =>
      rw [updateDocument_new hashFn now (.storedJson l2.toJson) l2 docId2 content2 metadata2 rfl hl2] at h
      obtain ⟨-, rfl⟩ := by simpa using h
      simp [lastCrawlOf, lookupKey]
    | some r2 =>
      by_cases hh : hashFn content2 = r2.contentHash
      · rw [updateDocument_unchanged hashFn now (.storedJson l2.toJson) l2 docId2 content2 metadata2 r2
          rfl hl2 hh] at h
        obtain ⟨-, rfl⟩ := by simpa using h
        simp [lastCrawlOf, lookupKey]
      · rw [updateDocument_changed hashFn now (.storedJson l2.toJson) l2 docId2 content2 metadata2 r2
          rfl hl2 hh] at h
        obtain ⟨-, rfl⟩ := by simpa using h
        simp [lastCrawlOf, lookupKey]

theorem update_document_unchanged_frame_witness :
    ∃ saved,
      updateDocument (fun s => s) "T1"
          (.storedJson (Ledger.toJson
            { documents := [("d",
                { contentHash := "c", createdAt := "T0", updatedAt := "T0",
                  version := 2, metadata := [("k", .num 7)] })],
              lastCrawl := .str "T0" }))
          "d" "c" [] = .ok ((false, false), saved)
        ∧ recordOf saved "d" = some (DocRecord.toJson
            { contentHash := "c", createdAt := "T0", updatedAt := "T0",
              version := 2, metadata := [("k", .num 7)] })
        ∧ lastCrawlOf saved = some (.str "T1") :=
  (update_document_unchanged_frame (fun s => s) "T1"
    { documents := [("d",
        { contentHash := "c", createdAt := "T0", updatedAt := "T0",
          version := 2, metadata := [("k", .num 7)] })],
      lastCrawl := .str "T0" }
    "d" "c" []
    { contentHash := "c", createdAt := "T0", updatedAt := "T0",
      version := 2, metadata := [("k", .num 7)] }
    (by rfl) (by rfl)).1

/-- C5 (counterexample): a ledger file holding well-formed JSON of the wrong
shape — here the JSON object `{}`, which parses fine but lacks the
`documents` key — is *not* recovered as an empty ledger: `update_document`
raises `KeyError` at `source_metadata['documents']`. -/
theorem update_document_malformed_ledger_keyError :
    updateDocument (fun s => s) "T1" (.storedJson (.obj [])) "doc" "body" []
      = .error .keyError := rfl

/-- C5 (amended): when the ledger file is absent or its content is
unparseable (`json.JSONDecodeError`), every tracker operation treats it as
the empty ledger and completes without raising. -/
theorem tracker_recovers_missing_or_unparseable_ledger
    (hashFn : String → String) (now : String) (fs : FileState)
    (hfs : fs = .absent ∨ fs = .invalidJson)
    (docId content : String) (metadata : List (String × Json)) :
    (∃ saved,
      updateDocument hashFn now fs docId content metadata
        = .ok ((true, true), saved)) ∧
    getDocumentMetadata fs docId = .ok .null ∧
    getAllDocumentIds fs = .ok [] ∧
    markDocumentDeleted now fs docId = .ok (false, none) := by
  have hload : loadMetadata fs = Ledger.toJson { documents := [], lastCrawl := .null } := by
    rcases hfs with h | h <;> (subst h; rfl)
  refine ⟨⟨_, updateDocument_new hashFn now fs { documents := [], lastCrawl := .null }
      docId content metadata hload rfl⟩, ?_, ?_, ?_⟩
  · unfold getDocumentMetadata
    rw [hload]
    simp [Ledger.toJson, ledgerDocsJson, pyGetItem, pyDictGet, lookupKey,
      okBind, pureOk]
  · unfold getAllDocumentIds
    rw [hload]
    simp [Ledger.toJson, ledgerDocsJson, pyGetItem, lookupKey, okBind, pureOk]
  · unfold markDocumentDeleted
    rw [hload]
    simp [Ledger.toJson, ledgerDocsJson, pyGetItem, pyContains, lookupKey,
      okBind, pureOk]

theorem tracker_recovers_missing_or_unparseable_ledger_witness :
    (∃ saved,
      updateDocument (fun s => s) "T1" .invalidJson "d" "body" []
        = .ok ((true, true), saved)) ∧
    getDocumentMetadata .invalidJson "d" = .ok .null ∧
    getAllDocumentIds .invalidJson = .ok [] ∧
    markDocumentDeleted "T1" .invalidJson "d" = .ok (false, none) :=
  tracker_recovers_missing_or_unparseable_ledger (fun s => s) "T1" .invalidJson
    (Or.inr rfl) "d" "body" []

/-! ## Chunker: totality and window arithmetic -/

theorem pyRange_isOk (start stop step : Int) (h : step ≠ 0) :
    ∃ l, pyRange start stop step = .ok l := by
  unfold pyRange
  rw [if_neg h]
  by_cases hpos : 0 < step
  · rw [if_pos hpos]; exact ⟨_, rfl⟩
  · rw [if_neg hpos]; exact ⟨_, rfl⟩

theorem pyRange_zero_stop (step : Int) (h : step ≠ 0) :
    pyRange 0 0 step = .ok [] := by
  unfold pyRange
  rw [if_neg h]
  by_cases hpos : 0 < step
  · rw [if_pos hpos]
    have hs : 0 < step.toNat := by omega
    have : ((0 : Int) - 0).toNat + step.toNat - 1 < step.toNat := by omega
    rw [Nat.div_eq_of_lt this]
    rfl
  · rw [if_neg hpos]
    have hs : 0 < (-step).toNat := by omega
    have : ((0 : Int) - 0).toNat + (-step).toNat - 1 < (-step).toNat := by omega
    rw [Nat.div_eq_of_lt this]
    rfl

theorem exists_ok {ε α : Type} (x : Except ε α) (a : α) (h : x = .ok a) :
    ∃ b, x = .ok b := ⟨a, h⟩

theorem mapM_isOk {α β : Type} (f : α → Except PyErr β) (l : List α)
    (h : ∀ x ∈ l, ∃ y, f x = .ok y) : ∃ ys, l.mapM f = .ok ys := by
  induction l with
  | nil => exact ⟨[], rfl⟩
  | cons a rest ih =>
    obtain ⟨y, hy⟩ := h a (List.mem_cons_self a rest)
    obtain ⟨ys, hys⟩ := ih (fun x hx => h x (List.mem_cons_of_mem a hx))
    refine ⟨y :: ys, ?_⟩
    rw [List.mapM_cons, hy, okBind, hys, okBind]
    rfl

theorem splitByTokens_isOk (cfg : ChunkerConfig) (text : List Char)
    (h : cfg.maxChunkSize ≠ cfg.overlap) :
    ∃ cs, splitByTokens cfg text = .ok cs := by
  have hstep : cfg.maxChunkSize * 4 - cfg.overlap * 4 ≠ 0 := by omega
  obtain ⟨l, hl⟩ := pyRange_isOk 0 text.length _ hstep
  apply exists_ok
  simp only [splitByTokens, hl, okBind, pureOk]
  rfl

theorem splitBySentences_isOk (cfg : ChunkerConfig) (text : List Char)
    (h : cfg.maxChunkSize ≠ cfg.overlap) :
    ∃ cs, splitBySentences cfg text = .ok cs := by
  obtain ⟨ys, hys⟩ := mapM_isOk
    (fun c => if (c.length : Int) > cfg.maxChunkSize
              then splitByTokens cfg c else pure [c])
    (packLoop cfg [' '] [] (splitSents text))
    (fun c _ => by
      by_cases hc : (c.length : Int) > cfg.maxChunkSize
      · simpa [hc] using splitByTokens_isOk cfg c h
      · exact ⟨[c], by simp [hc, pureOk]⟩)
  refine ⟨ys.flatten, ?_⟩
  simp only [splitBySentences]
  rw [hys, okBind, pureOk]

theorem splitByParagraphs_isOk (cfg : ChunkerConfig) (text : List Char)
    (h : cfg.maxChunkSize ≠ cfg.overlap) :
    ∃ cs, splitByParagraphs cfg text = .ok cs := by
  obtain ⟨ys, hys⟩ := mapM_isOk
    (fun c => if (c.length : Int) > cfg.maxChunkSize
              then splitBySentences cfg c else pure [c])
    (packLoop cfg ['\n', '\n'] [] (splitParas text))
    (fun c _ => by
      by_cases hc : (c.length : Int) > cfg.maxChunkSize
      · simpa [hc] using splitBySentences_isOk cfg c h
      · exact ⟨[c], by simp [hc, pureOk]⟩)
  refine ⟨ys.flatten, ?_⟩
  simp only [splitByParagraphs]
  rw [hys, okBind, pureOk]

theorem splitBySections_isOk (cfg : ChunkerConfig) (text : List Char)
    (h : cfg.maxChunkSize ≠ cfg.overlap) :
    ∃ cs, splitBySections cfg text = .ok cs := by
  obtain ⟨ys, hys⟩ := mapM_isOk
    (fun c => if (c.length : Int) > cfg.maxChunkSize
              then (if cfg.respectParagraphs then splitByParagraphs cfg c
                    else splitBySentences cfg c)
              else pure [c])
    (sectionCombine cfg ((splitSectionsRe text).headD []) (splitSectionsRe text).tail)
    (fun c _ => by
      by_cases hc : (c.length : Int) > cfg.maxChunkSize
      · by_cases hp : cfg.respectParagraphs
        · simpa [hc, hp] using splitByParagraphs_isOk cfg c h
        · simpa [hc, hp] using splitBySentences_isOk cfg c h
      · exact ⟨[c], by simp [hc, pureOk]⟩)
  refine ⟨ys.flatten, ?_⟩
  simp only [splitBySections]
  rw [hys, okBind, pureOk]

/-- C4 (amended): `chunk_text` terminates and returns a list of chunks
without raising, for every text, metadata and configuration whose window step
is non-zero — that is, whenever `overlap ≠ max_chunk_size`.  (Termination is
structural in this embedding; the only failure point of the cascade is the
zero-step `range` in `_split_by_tokens`.) -/
theorem chunk_text_total_of_overlap_ne_max (cfg : ChunkerConfig)
    (metadata : List (String × String)) (text : List Char)
    (h : cfg.maxChunkSize ≠ cfg.overlap) :
    ∃ chunks, chunkText cfg metadata text = .ok chunks := by
  unfold chunkText
  by_cases h1 : cfg.respectSections ∧ containsSectionMarker text
  · obtain ⟨cs, hcs⟩ := splitBySections_isOk cfg text h
    apply exists_ok
    simp only [if_pos h1, hcs, okBind, pureOk]
    rfl
  · by_cases h2 : cfg.respectParagraphs
    · obtain ⟨cs, hcs⟩ := splitByParagraphs_isOk cfg text h
      apply exists_ok
      simp only [if_neg h1, if_pos h2, hcs, okBind, pureOk]
      rfl
    · by_cases h3 : cfg.respectSentences
      · obtain ⟨cs, hcs⟩ := splitBySentences_isOk cfg text h
        apply exists_ok
        simp only [if_neg h1, if_neg h2, if_pos h3, hcs, okBind, pureOk]
        rfl
      · obtain ⟨cs, hcs⟩ := splitByTokens_isOk cfg text h
        apply exists_ok
        simp only [if_neg h1, if_neg h2, if_neg h3, hcs, okBind, pureOk]
        rfl

theorem chunk_text_total_of_overlap_ne_max_witness :
    ∃ chunks, chunkText {} [] "abc".toList = .ok chunks :=
  chunk_text_total_of_overlap_ne_max {} [] "abc".toList (by decide)

/-- C4 (counterexample): the cascade is not total for every configuration —
with `overlap = max_chunk_size` the window step of `_split_by_tokens` is
zero, and `range` raises `ValueError`; with the `respect_*` flags off,
`chunk_text` hits that fallback directly and propagates the error. -/
theorem chunk_text_valueError_when_overlap_equals_max :
    chunkText { maxChunkSize := 50, overlap := 50, respectSections := false,
                respectParagraphs := false, respectSentences := false }
        [] "abc".toList
      = .error .valueError := by rfl

/-! ## Chunker: empty input and whitespace chunks -/

theorem splitParas_nil : splitParas [] = [[]] := by
  simp [splitParas, splitParasAux]

theorem splitSents_nil : splitSents [] = [[]] := by
  simp [splitSents, splitSentsAux]

theorem splitByParagraphs_nil (cfg : ChunkerConfig) :
    splitByParagraphs cfg [] = .ok [] := by
  simp [splitByParagraphs, splitParas_nil, packLoop, okBind, pureOk]
  rfl

theorem splitBySentences_nil (cfg : ChunkerConfig) :
    splitBySentences cfg [] = .ok [] := by
  simp [splitBySentences, splitSents_nil, packLoop, okBind, pureOk]
  rfl

theorem splitByTokens_nil (cfg : ChunkerConfig)
    (h : cfg.maxChunkSize ≠ cfg.overlap) : splitByTokens cfg [] = .ok [] := by
  have hr := pyRange_zero_stop (cfg.maxChunkSize * 4 - cfg.overlap * 4) (by omega)
  simp [splitByTokens, hr, okBind, pureOk]

/-! ## Chunker: token-window geometry (claim C3) -/

theorem filterMap_eq_map_of_some {α β : Type} (f : α → Option β) (g : α → β)
    (l : List α) (h : ∀ x ∈ l, f x = some (g x)) : l.filterMap f = l.map g := by
  induction l with
  | nil => rfl
  | cons a rest ih =>
    rw [List.filterMap_cons_some (h a (List.mem_cons_self a rest)),
      List.map_cons, ih (fun x hx => h x (List.mem_cons_of_mem a hx))]

theorem pyRange_pos (stop step : Int) (hs : 0 < step) :
    pyRange 0 stop step
      = .ok ((List.range ((stop.toNat + step.toNat - 1) / step.toNat)).map
          (fun k : Nat => step * (k : Int))) := by
  have hne : step ≠ 0 := by omega
  have hsub : stop - 0 = stop := by ring
  simp [pyRange, hne, hs, hsub]

theorem lt_of_mem_range_ceilDiv (len s k : Nat) (hs : 0 < s)
    (hk : k < (len + s - 1) / s) : s * k < len := by
  have h2 : (k + 1) * s ≤ len + s - 1 := (Nat.le_div_iff_mul_le hs).mp hk
  rw [Nat.succ_mul] at h2
  have h3 : k * s = s * k := Nat.mul_comm k s
  omega

theorem pySlice_ofNat (l : List Char) (a b : Nat) :
    pySlice l (a : Int) (b : Int)
      = (l.drop (min a l.length)).take (min b l.length - min a l.length) := by
  simp [pySlice, pySliceIdx]

theorem take_min_self {α : Type} (xs : List α) (c : Nat) :
    xs.take (min c xs.length) = xs.take c := by
  rcases Nat.le_total c xs.length with h | h
  · rw [Nat.min_eq_left h]
  · rw [Nat.min_eq_right h, List.take_length, List.take_of_length_le h]

theorem isEmpty_false_of_length_pos {α : Type} (l : List α) (h : 0 < l.length) :
    l.isEmpty = false := by
  cases l with
  | nil => simp at h
  | cons a t => rfl

theorem splitByTokens_closed_general (cfg : ChunkerConfig) (text : List Char)
    (sN cN : Nat)
    (hs : (cfg.maxChunkSize - cfg.overlap) * 4 = (sN : Int))
    (hc : cfg.maxChunkSize * 4 = (cN : Int))
    (hspos : 0 < sN) (hcpos : 0 < cN) :
    splitByTokens cfg text
      = .ok ((List.range ((text.length + sN - 1) / sN)).map
          (fun k => (text.drop (sN * k)).take cN)) := by
  have hstep : cfg.maxChunkSize * 4 - cfg.overlap * 4 = (sN : Int) := by omega
  have hrange := pyRange_pos (text.length : Int) (sN : Int) (by exact_mod_cast hspos)
  simp only [Int.toNat_natCast] at hrange
  simp only [splitByTokens, hstep, hrange, okBind, pureOk]
  congr 1
  rw [List.filterMap_map]
  apply filterMap_eq_map_of_some
  intro k hk
  have hk2 : sN * k < text.length :=
    lt_of_mem_range_ceilDiv text.length sN k hspos (List.mem_range.mp hk)
  have harg1 : ((sN : Int)) * ((k : Nat) : Int) = ((sN * k : Nat) : Int) := by
    push_cast; ring
  have harg2 : ((sN * k : Nat) : Int) + cfg.maxChunkSize * 4
      = ((sN * k + cN : Nat) : Int) := by
    rw [hc]; push_cast; ring
  simp only [Function.comp]
  rw [harg1, harg2, pySlice_ofNat]
  have hmin1 : min (sN * k) text.length = sN * k := Nat.min_eq_left (Nat.le_of_lt hk2)
  rw [hmin1]
  have hmin2 : min (sN * k + cN) text.length - sN * k
      = min cN (text.length - sN * k) := by omega
  rw [hmin2]
  have hlend : (text.drop (sN * k)).length = text.length - sN * k :=
    List.length_drop _ _
  rw [← hlend, take_min_self]
  have hne : ((text.drop (sN * k)).take cN).isEmpty = false := by
    apply isEmpty_false_of_length_pos
    rw [List.length_take, hlend]
    omega
  rw [hne]
  simp

theorem splitByTokens_closed (cfg : ChunkerConfig) (text : List Char)
    (hv : 0 ≤ cfg.overlap) (hm : cfg.overlap < cfg.maxChunkSize) :
    splitByTokens cfg text
      = .ok ((List.range
            ((text.length + ((cfg.maxChunkSize - cfg.overlap) * 4).toNat - 1)
              / ((cfg.maxChunkSize - cfg.overlap) * 4).toNat)).map
          (fun k =>
            (text.drop (((cfg.maxChunkSize - cfg.overlap) * 4).toNat * k)).take
              ((cfg.maxChunkSize * 4).toNat))) :=
  splitByTokens_closed_general cfg text
    ((cfg.maxChunkSize - cfg.overlap) * 4).toNat ((cfg.maxChunkSize * 4)).toNat
    (by omega) (by omega) (by omega) (by omega)

/-- C3 (amended): every window emitted by `_split_by_tokens` has at most
`max_chunk_size * 4` characters (the code measures windows in characters at
four characters per token, not in `max_chunk_size` characters), and each
window after the first begins by repeating the previous window's content from
position `(max_chunk_size - overlap) * 4` on — i.e. consecutive windows
overlap in `overlap * 4` characters, not `overlap` characters. -/
theorem split_by_tokens_window_geometry (cfg : ChunkerConfig) (text : List Char)
    (hv : 0 ≤ cfg.overlap) (hm : cfg.overlap < cfg.maxChunkSize) :
    ∃ chunks, splitByTokens cfg text = .ok chunks
      ∧ (∀ ch ∈ chunks, ch.length ≤ (cfg.maxChunkSize * 4).toNat)
      ∧ (∀ k, ∀ hk : k + 1 < chunks.length,
          (chunks.get ⟨k + 1, hk⟩).take ((cfg.overlap * 4).toNat)
            = (chunks.get ⟨k, Nat.lt_of_succ_lt hk⟩).drop
                (((cfg.maxChunkSize - cfg.overlap) * 4).toNat)) := by
  refine ⟨_, splitByTokens_closed cfg text hv hm, ?_, ?_⟩
  · intro ch hch
    obtain ⟨k, hk, rfl⟩ := List.mem_map.mp hch
    calc ((text.drop (((cfg.maxChunkSize - cfg.overlap) * 4).toNat * k)).take
            ((cfg.maxChunkSize * 4).toNat)).length
        = min ((cfg.maxChunkSize * 4).toNat)
            (text.drop (((cfg.maxChunkSize - cfg.overlap) * 4).toNat * k)).length :=
          List.length_take _ _
      _ ≤ (cfg.maxChunkSize * 4).toNat := Nat.min_le_left _ _
  · intro k hk
    have hov : min ((cfg.overlap * 4).toNat) ((cfg.maxChunkSize * 4).toNat)
        = (cfg.overlap * 4).toNat := by omega
    have hsum : (cfg.maxChunkSize * 4).toNat
          - ((cfg.maxChunkSize - cfg.overlap) * 4).toNat
        = (cfg.overlap * 4).toNat := by omega
    simp only [List.get_eq_getElem, List.getElem_map, List.getElem_range]
    rw [List.take_take, hov, List.drop_take, hsum, List.drop_drop]
    congr 2

theorem split_by_tokens_window_geometry_witness :
    ∃ chunks,
      splitByTokens { maxChunkSize := 2, overlap := 1 } "abcdefghijkl".toList
          = .ok chunks
        ∧ (∀ ch ∈ chunks, ch.length ≤ 8)
        ∧ (∀ k, ∀ hk : k + 1 < chunks.length,
            (chunks.get ⟨k + 1, hk⟩).take 4
              = (chunks.get ⟨k, Nat.lt_of_succ_lt hk⟩).drop 4) :=
  split_by_tokens_window_geometry { maxChunkSize := 2, overlap := 1 }
    "abcdefghijkl".toList (by decide) (by decide)

/-- C3 (counterexample): with `max_chunk_size = 2` and `overlap = 1`, the
windows are 8 characters long (not at most 2), and consecutive windows share
4 characters (not exactly 1 — the first character of the second window is not
the trailing 1 character of the first): `_split_by_tokens` works in units of
4 characters per token. -/
theorem split_by_tokens_chars_per_token_counterexample :
    splitByTokens { maxChunkSize := 2, overlap := 1 } "abcdefghijkl".toList
        = .ok ["abcdefgh".toList, "efghijkl".toList, "ijkl".toList]
      ∧ ¬ ("abcdefgh".toList.length ≤ 2)
      ∧ "efghijkl".toList.take 1 ≠ "abcdefgh".toList.drop 7 := by
  decide

/-- C9 (amended): `chunk_text` on the empty string returns the empty
sequence, for every configuration in which paragraph or sentence splitting is
enabled or the token-window step is non-zero (`overlap ≠ max_chunk_size` —
otherwise even the empty string raises `ValueError`, see the C4
counterexample).  The whitespace-only clause of the claim is dropped: the
fixed-window fallback can emit whitespace-only chunks. -/
theorem chunk_text_empty_input (cfg : ChunkerConfig)
    (metadata : List (String × String))
    (h : cfg.respectParagraphs = true ∨ cfg.respectSentences = true
        ∨ cfg.maxChunkSize ≠ cfg.overlap) :
    chunkText cfg metadata [] = .ok [] := by
  have hsec : containsSectionMarker ([] : List Char) = false := rfl
  by_cases hp : cfg.respectParagraphs
  · simp [chunkText, hsec, hp, splitByParagraphs_nil cfg, okBind, pureOk]
  · by_cases hq : cfg.respectSentences
    · simp [chunkText, hsec, hp, hq, splitBySentences_nil cfg, okBind, pureOk]
    · have hMV : cfg.maxChunkSize ≠ cfg.overlap := by
        rcases h with h | h | h
        · exact absurd h hp
        · exact absurd h hq
        · exact h
      simp [chunkText, hsec, hp, hq, splitByTokens_nil cfg hMV, okBind, pureOk]

theorem chunk_text_empty_input_witness :
    chunkText {} [] [] = .ok [] :=
  chunk_text_empty_input {} [] (Or.inl rfl)

/-- C9 (counterexample): a chunk consisting only of whitespace is *not*
always dropped — with the `respect_*` flags off, `chunk_text` on the
single-space text emits the whitespace-only chunk `" "` (the fixed-window
fallback slices raw text and only drops empty slices). -/
theorem chunk_text_emits_whitespace_chunk :
    chunkText { respectSections := false, respectParagraphs := false,
                respectSentences := false } [] [' ']
        = .ok [{ content := [' '], chunkIndex := 0, chunkCount := 1,
                 metadata := [] }]
      ∧ [' '].all isPySpace = true := ⟨rfl, rfl⟩


/-! ## Search aggregator: grouping, ordering, truncation -/

theorem mem_insertAscByIdx (x y : ChunkEntry) (l : List ChunkEntry) :
    y ∈ insertAscByIdx x l ↔ y = x ∨ y ∈ l := by
  induction l with
  | nil => simp [insertAscByIdx]
  | cons a t ih =>
    simp only [insertAscByIdx]
    by_cases hx : x.index < a.index
    · rw [if_pos hx]
      simp only [List.mem_cons]
    · rw [if_neg hx]
      simp only [List.mem_cons, ih]
      tauto

theorem insertAscByIdx_pairwise (x : ChunkEntry) (l : List ChunkEntry)
    (h : l.Pairwise (fun a b => a.index ≤ b.index)) :
    (insertAscByIdx x l).Pairwise (fun a b => a.index ≤ b.index) := by
  induction l with
  | nil => simp [insertAscByIdx]
  | cons a t ih =>
    rw [List.pairwise_cons] at h
    obtain ⟨ha, ht⟩ := h
    by_cases hx : x.index < a.index
    · simp only [insertAscByIdx, if_pos hx]
      rw [List.pairwise_cons]
      refine ⟨?_, List.Pairwise.cons ha ht⟩
      intro z hz
      rcases List.mem_cons.mp hz with rfl | hz2
      · exact Int.le_of_lt hx
      · exact Int.le_trans (Int.le_of_lt hx) (ha z hz2)
    · simp only [insertAscByIdx, if_neg hx]
      rw [List.pairwise_cons]
      refine ⟨?_, ih ht⟩
      intro z hz
      rcases (mem_insertAscByIdx x z t).mp hz with rfl | hz2
      · omega
      · exact ha z hz2

theorem sortAscByIdx_aux_pairwise (l : List ChunkEntry) :
    ∀ acc : List ChunkEntry, acc.Pairwise (fun a b => a.index ≤ b.index) →
      (l.foldl (fun acc x => insertAscByIdx x acc) acc).Pairwise
        (fun a b => a.index ≤ b.index) := by
  induction l with
  | nil => intro acc hacc; simpa using hacc
  | cons a t ih =>
    intro acc hacc
    exact ih (insertAscByIdx a acc) (insertAscByIdx_pairwise a acc hacc)

theorem sortAscByIdx_pairwise (l : List ChunkEntry) :
    (sortAscByIdx l).Pairwise (fun a b => a.index ≤ b.index) :=
  sortAscByIdx_aux_pairwise l [] (List.Pairwise.nil)

/-- C2 (amended): in every grouped result of `search_documents` with
`group_chunks=true`, the retained `chunks` field holds at most 3 chunks and
they are the initial chunks in ascending `chunk_index` order — the truncation
`sorted_chunks[:3]` happens after sorting by index, not by similarity, so the
highest-similarity chunk need not be retained (see the counterexample). -/
theorem search_documents_chunk_truncation_by_index
    (hits : List SearchHit) (limit : Nat) (out : List GEntry)
    (h : searchDocuments hits limit true = .ok out) :
    ∀ e ∈ out, ∀ g : Group, e = .grouped g →
      g.chunks.length ≤ 3 ∧ chunksSortedByIndex g.chunks := by
  intro e he g hg
  subst hg
  cases hacc : buildGroups hits [] with
  | error err =>
    simp only [searchDocuments] at h
    rw [if_neg (by simp), hacc, errBind] at h
    exact absurd h (by simp)
  | ok acc =>
    simp only [searchDocuments] at h
    rw [if_neg (by simp), hacc, okBind, pureOk] at h
    injection h with hout
    subst hout
    have he2 := List.mem_of_mem_take he
    obtain ⟨e0, he0, hfe⟩ := List.mem_map.mp he2
    cases e0 with
    | passthrough h0 => simp [finalizeEntry] at hfe
    | grouped g0 =>
      simp only [finalizeEntry] at hfe
      by_cases hempty : g0.chunks.isEmpty
      · rw [if_pos hempty] at hfe
        injection hfe with hg0
        subst hg0
        have hnil : g0.chunks = [] := eq_nil_of_isEmpty _ hempty
        exact ⟨by simp [hnil], by rw [chunksSortedByIndex, hnil]; exact List.Pairwise.nil⟩
      · rw [if_neg hempty] at hfe
        injection hfe with hg0
        constructor
        · rw [← hg0]
          simp
        · rw [← hg0]
          exact List.Pairwise.sublist (List.take_sublist 3 _)
            (sortAscByIdx_pairwise g0.chunks)

theorem search_documents_chunk_truncation_by_index_witness :
    (Group.mk "P" "t" "A\n\nB\n\nC\n\nD"
        [ChunkEntry.mk "A" 1 0, ChunkEntry.mk "B" 1 1, ChunkEntry.mk "C" 1 2]
        9).chunks.length ≤ 3
    ∧ chunksSortedByIndex (Group.mk "P" "t" "A\n\nB\n\nC\n\nD"
        [ChunkEntry.mk "A" 1 0, ChunkEntry.mk "B" 1 1, ChunkEntry.mk "C" 1 2]
        9).chunks :=
  search_documents_chunk_truncation_by_index
    [{ id := "c0", title := "t", content := "A",
       metadata := { isChunk := true, parentId := some "P", chunkIndex := some 0 },
       similarity := 1 },
     { id := "c1", title := "t", content := "B",
       metadata := { isChunk := true, parentId := some "P", chunkIndex := some 1 },
       similarity := 1 },
     { id := "c2", title := "t", content := "C",
       metadata := { isChunk := true, parentId := some "P", chunkIndex := some 2 },
       similarity := 1 },
     { id := "c3", title := "t", content := "D",
       metadata := { isChunk := true, parentId := some "P", chunkIndex := some 3 },
       similarity := 9 }] 10
    [.grouped (Group.mk "P" "t" "A\n\nB\n\nC\n\nD"
      [ChunkEntry.mk "A" 1 0, ChunkEntry.mk "B" 1 1, ChunkEntry.mk "C" 1 2] 9)]
    (by rfl) _ (by simp) _ rfl

/-- C2 (counterexample): four chunks of one parent with similarities
1, 1, 1, 9 at indices 0, 1, 2, 3 — the stored group keeps the three chunks of
smallest index (all similarity 1) and discards the similarity-9 chunk, so the
retained chunks are *not* the top 3 by descending similarity. -/
theorem search_documents_drops_top_similarity_chunk :
    searchDocuments
        [{ id := "c0", title := "t", content := "A",
           metadata := { isChunk := true, parentId := some "P", chunkIndex := some 0 },
           similarity := 1 },
         { id := "c1", title := "t", content := "B",
           metadata := { isChunk := true, parentId := some "P", chunkIndex := some 1 },
           similarity := 1 },
         { id := "c2", title := "t", content := "C",
           metadata := { isChunk := true, parentId := some "P", chunkIndex := some 2 },
           similarity := 1 },
         { id := "c3", title := "t", content := "D",
           metadata := { isChunk := true, parentId := some "P", chunkIndex := some 3 },
           similarity := 9 }] 10 true
      = .ok [.grouped (Group.mk "P" "t" "A\n\nB\n\nC\n\nD"
          [ChunkEntry.mk "A" 1 0, ChunkEntry.mk "B" 1 1, ChunkEntry.mk "C" 1 2]
          9)]
    ∧ ChunkEntry.mk "D" 9 3
        ∉ [ChunkEntry.mk "A" 1 0, ChunkEntry.mk "B" 1 1, ChunkEntry.mk "C" 1 2] := by
  decide

/-- C6: a grouped result's reconstructed `content` is the chunk contents
joined in ascending `chunk_index` order: three chunk hits sharing parent `p`
and arriving with indices [2, 0, 1] produce one group whose content is
`c0 ++ "\n\n" ++ c1 ++ "\n\n" ++ c2` and whose chunks are ordered
[0, 1, 2] — for every parent id, titles, contents and similarities. -/
theorem search_documents_content_in_index_order
    (p t0 t1 t2 c0 c1 c2 : String) (s0 s1 s2 : ℚ) (hp : p ≠ "") :
    firstGroupContent (searchDocuments
        [{ id := "x2", title := t2, content := c2,
           metadata := { isChunk := true, parentId := some p, chunkIndex := some 2 },
           similarity := s2 },
         { id := "x0", title := t0, content := c0,
           metadata := { isChunk := true, parentId := some p, chunkIndex := some 0 },
           similarity := s0 },
         { id := "x1", title := t1, content := c1,
           metadata := { isChunk := true, parentId := some p, chunkIndex := some 1 },
           similarity := s1 }] 10 true)
      = some (c0 ++ "\n\n" ++ c1 ++ "\n\n" ++ c2)
    ∧ firstGroupChunkIndices (searchDocuments
        [{ id := "x2", title := t2, content := c2,
           metadata := { isChunk := true, parentId := some p, chunkIndex := some 2 },
           similarity := s2 },
         { id := "x0", title := t0, content := c0,
           metadata := { isChunk := true, parentId := some p, chunkIndex := some 0 },
           similarity := s0 },
         { id := "x1", title := t1, content := c1,
           metadata := { isChunk := true, parentId := some p, chunkIndex := some 1 },
           similarity := s1 }] 10 true)
      = some [0, 1, 2] := by
  constructor <;>
    simp [searchDocuments, buildGroups, lookupKey, insertKey, hp, sortDescBySim,
      insertDescBySim, finalizeEntry, sortAscByIdx, insertAscByIdx,
      joinChunkContents, joinPieces, firstGroupContent, firstGroupChunkIndices,
      okBind, pureOk, lt_irrefl, apply_ite Group.chunks, apply_ite Group.content,
      apply_ite Group.id, apply_ite Group.title, ite_self, String.append_assoc]

theorem search_documents_content_in_index_order_witness :
    firstGroupContent (searchDocuments
        [{ id := "x2", title := "t2", content := "X2",
           metadata := { isChunk := true, parentId := some "P", chunkIndex := some 2 },
           similarity := 1 },
         { id := "x0", title := "t0", content := "X0",
           metadata := { isChunk := true, parentId := some "P", chunkIndex := some 0 },
           similarity := 2 },
         { id := "x1", title := "t1", content := "X1",
           metadata := { isChunk := true, parentId := some "P", chunkIndex := some 1 },
           similarity := 3 }] 10 true)
      = some ("X0" ++ "\n\n" ++ "X1" ++ "\n\n" ++ "X2")
    ∧ firstGroupChunkIndices (searchDocuments
        [{ id := "x2", title := "t2", content := "X2",
           metadata := { isChunk := true, parentId := some "P", chunkIndex := some 2 },
           similarity := 1 },
         { id := "x0", title := "t0", content := "X0",
           metadata := { isChunk := true, parentId := some "P", chunkIndex := some 0 },
           similarity := 2 },
         { id := "x1", title := "t1", content := "X1",
           metadata := { isChunk := true, parentId := some "P", chunkIndex := some 1 },
           similarity := 3 }] 10 true)
      = some [0, 1, 2] :=
  search_documents_content_in_index_order "P" "t0" "t1" "t2" "X0" "X1" "X2"
    2 3 1 (by decide)

/-- C10: a backend hit sequence consisting of a non-chunk hit with id `P`
followed by a chunk hit whose metadata has `is_chunk=true` and
`parent_id=P` makes `search_documents` with `group_chunks=true` raise an
unhandled `KeyError`: the pass-through entry stored for `P` is the raw hit
dictionary, which has no `chunks` key when the chunk is appended to it. -/
theorem search_documents_passthrough_chunk_collision_keyError :
    searchDocuments
        [{ id := "P", title := "t", content := "whole", metadata := {},
           similarity := 5 },
         { id := "P_chunk_0", title := "t", content := "piece",
           metadata := { isChunk := true, parentId := some "P", chunkIndex := some 0 },
           similarity := 7 }] 10 true
      = .error .keyError := by decide

/-! ## PGVector: deleting a never-created collection -/

theorem eraseKey_of_lookup_none {β : Type} (kvs : List (String × β)) (k : String)
    (h : lookupKey kvs k = none) : eraseKey kvs k = kvs := by
  induction kvs with
  | nil => rfl
  | cons kv rest ih =>
    obtain ⟨q, v⟩ := kv
    simp only [lookupKey] at h
    by_cases hk : q = k
    · rw [if_pos hk] at h
      exact absurd h (by simp)
    · rw [if_neg hk] at h
      simp [eraseKey, hk, ih h]

/-- C8 (amended): deleting a collection that was never created *succeeds*:
the bulk `DELETE` matching zero rows is a successful statement, the tracking
entry is absent so nothing is dropped, and `delete_collection` returns `True`
(not a failure result) without raising; the backend state is unchanged. -/
theorem delete_collection_never_created_succeeds (st : PGState) (name : String)
    (h : st.neverCreated name) :
    integrationDeleteCollection true st name = (true, st) := by
  obtain ⟨rows, colls⟩ := st
  obtain ⟨hrows, hcoll⟩ := h
  have h1 : rows.filter (fun r => !decide (r.collection = name)) = rows :=
    List.filter_eq_self.mpr (fun r hr => by simpa using hrows r hr)
  have h2 : eraseKey colls name = colls := eraseKey_of_lookup_none _ _ hcoll
  simp [integrationDeleteCollection, pgDeleteCollection, h1, h2]

theorem delete_collection_never_created_succeeds_witness :
    integrationDeleteCollection true { rows := [], collections := [] } "ghost"
      = (true, { rows := [], collections := [] }) :=
  delete_collection_never_created_succeeds { rows := [], collections := [] }
    "ghost" ⟨fun r hr => absurd hr (List.not_mem_nil r), rfl⟩

/-- C8 (counterexample): the result for a never-created collection is `True`,
not the non-fatal failure (`false`) the claim states. -/
theorem delete_collection_never_created_not_false :
    (integrationDeleteCollection true { rows := [], collections := [] }
      "ghost").1 = true
    ∧ (integrationDeleteCollection true { rows := [], collections := [] }
      "ghost").1 ≠ false := by
  constructor
  · rfl
  · intro hc
    exact absurd hc (by simp [integrationDeleteCollection, pgDeleteCollection])

end DocuCrawler
